import Mathlib

/-!
Verification development for the ionmc-v2 repository.

The definitions below are a shallow embedding of the TypeScript sources:

* `src/Rcon.ts` — the RCON remote-command client: packet construction
  (`createPacket`), response buffering and decoding (`handleResponse`),
  the promise created by `sendPacket`, and the always-throwing constructor.
* `src/objects/Server.ts` — the server supervisor: the pty chunk handler
  (`attachPtyEvents`), log-line parsing (`parseData`), event classification
  (`checkEvents`), the online player set, `getPlayers`, `start`,
  `parseProperties` and `connectRcon`.

JavaScript strings are modelled as `List Char`, byte buffers as `List Nat`
with every byte below 256, numbers as `Nat`/`Int` with explicit wrapping
where Node applies 32-bit arithmetic, and promise/event behaviour as
explicit state passing over event lists.
-/

/-! ## Byte-buffer primitives (Node `Buffer` operations used by Rcon.ts) -/

/-- Little-endian four-byte split of an unsigned 32-bit value. -/
def le32u (u : Nat) : List Nat :=
  [u % 256, u / 256 % 256, u / 65536 % 256, u / 16777216 % 256]

/-- Twos-complement unsigned representation of a 32-bit integer,
as stored by Node `Buffer.writeInt32LE`. -/
def toUInt32rep (i : Int) : Nat := (i % 4294967296).toNat

/-- Bytes written by `Buffer.writeInt32LE value offset`. -/
def le32 (i : Int) : List Nat := le32u (toUInt32rep i)

/-- Byte of a buffer at an index; Node reads of a `Buffer` are always
in bounds in the code paths modelled here, the default 0 is never hit
in the theorems below. -/
def byteAt (l : List Nat) (i : Nat) : Nat := l.getD i 0

/-- Signed reinterpretation of an unsigned 32-bit value, as performed by
`Buffer.readInt32LE`. -/
def fromU32 (u : Nat) : Int :=
  if u ≥ 2147483648 then (u : Int) - 4294967296 else (u : Int)

/-- Node `Buffer.readInt32LE offset`: four bytes little endian, signed. -/
def readInt32LE (l : List Nat) (off : Nat) : Int :=
  fromU32 (byteAt l off + 256 * byteAt l (off + 1) + 65536 * byteAt l (off + 2)
    + 16777216 * byteAt l (off + 3))

/-- Node `Buffer.alloc n`: a zero-filled buffer. -/
def bufferAlloc (n : Nat) : List Nat := List.replicate n 0

/-- Overwrite bytes of a buffer starting at `off`.  Every write performed by
`createPacket` is within bounds, where this coincides with the Node
behaviour. -/
def writeBytes (buf : List Nat) (off : Nat) (bs : List Nat) : List Nat :=
  buf.take off ++ bs ++ buf.drop (off + bs.length)

/-- Node `Buffer.writeInt32LE value offset`. -/
def writeInt32LE (buf : List Nat) (value : Int) (off : Nat) : List Nat :=
  writeBytes buf off (le32 value)

/-- Node `Buffer.writeInt16LE value offset`. -/
def writeInt16LE (buf : List Nat) (value : Int) (off : Nat) : List Nat :=
  writeBytes buf off [(value % 65536).toNat % 256, (value % 65536).toNat / 256]

/-- Node `Buffer.toString(encoding, start, end)` on a byte buffer: the slice
from `start` (inclusive) to `end` (exclusive), clamped to the buffer; the
body bytes are returned directly since the UTF-8 text is modelled as its
byte list. -/
def bufSlice (l : List Nat) (s e : Int) : List Nat := (l.take e.toNat).drop s.toNat

/-! ## RCON.createPacket (Rcon.ts lines 139-150)

The source computes `length = Buffer.byteLength(body) + 14`, allocates a
zero-filled buffer of that size and performs five writes:
`writeInt32LE(length - 4, 0)`, `writeInt32LE(id, 4)`, `writeInt32LE(type, 8)`,
`write(body, 12)`, `writeInt16LE(0, length - 2)`. -/

def createPacket (id ty : Int) (body : List Nat) : List Nat :=
  let length := body.length + 14
  let b0 := bufferAlloc length
  let b1 := writeInt32LE b0 ((length : Int) - 4) 0
  let b2 := writeInt32LE b1 id 4
  let b3 := writeInt32LE b2 ty 8
  let b4 := writeBytes b3 12 body
  writeInt16LE b4 0 (length - 2)

/-! ## RCON.handleResponse (Rcon.ts lines 105-130)

The incoming chunk is appended to `this.responseBuffer` (or becomes the
buffer when it was null).  With at least 12 buffered bytes the declared
length is read from offset 0; once `length + 4` bytes are present the id
and the body slice `[12, length + 2)` are extracted, the buffer is reset
to null and the promise resolves.  With 12 or more bytes but fewer than
`length + 4` nothing happens: the promise stays pending and the buffer is
kept.  With fewer than 12 bytes the promise is rejected with the error
"Incomplete packet received" while the buffer is kept. -/

/-- Concatenation of the retained response buffer with the incoming chunk. -/
def combineBuf : Option (List Nat) → List Nat → List Nat
  | some b, data => b ++ data
  | none, data => data

/-- Outcome of one `handleResponse` invocation for the promise it controls. -/
inductive HrOutcome
  | deferred
  | incompleteError
  | packet (id : Int) (body : List Nat)
deriving DecidableEq, Repr

/-- One invocation of `RCON.handleResponse`: returns the new value of
`this.responseBuffer` together with the outcome for the pending promise. -/
def handleResponse (buf : Option (List Nat)) (data : List Nat) :
    Option (List Nat) × HrOutcome :=
  if (combineBuf buf data).length ≥ 12 then
    if ((combineBuf buf data).length : Int) ≥ readInt32LE (combineBuf buf data) 0 + 4 then
      (none, HrOutcome.packet (readInt32LE (combineBuf buf data) 4)
        (bufSlice (combineBuf buf data) 12 (readInt32LE (combineBuf buf data) 0 + 2)))
    else
      (some (combineBuf buf data), HrOutcome.deferred)
  else
    (some (combineBuf buf data), HrOutcome.incompleteError)

/-! ## RCON.sendPacket (Rcon.ts lines 79-98)

After writing the packet the code binds `onData` with
`socket.once("data", onData)` — a single-shot listener with no request-id
filtering and no timer — plus a persistent error listener.  The promise
created by `sendPacket` therefore settles only from the next data or error
event: it resolves with whatever packet `handleResponse` extracts first,
rejects on the incomplete-packet error or a socket error, and otherwise
stays pending forever. -/

inductive SocketEvent
  | dataEv (bytes : List Nat)
  | errorEv
deriving DecidableEq, Repr

inductive SendOutcome
  | resolvedWith (id : Int) (body : List Nat)
  | rejected
deriving DecidableEq, Repr

/-- Settlement of the promise created by `RCON.sendPacket` as a function of
the socket events that follow the write.  `none` means the promise never
settles.  The `deferred` branch also yields `none`: the once-listener has
been consumed and `handleResponse` settled nothing, so no later event can
reach this promise. -/
def sendPacketAwait (buf : Option (List Nat)) : List SocketEvent → Option SendOutcome
  | [] => none
  | SocketEvent.errorEv :: _ => some SendOutcome.rejected
  | SocketEvent.dataEv d :: _ =>
    match handleResponse buf d with
    | (_, HrOutcome.packet id body) => some (SendOutcome.resolvedWith id body)
    | (_, HrOutcome.incompleteError) => some SendOutcome.rejected
    | (_, HrOutcome.deferred) => none

/-! ## RCON constructor (Rcon.ts lines 11-16) -/

/-- The RCON constructor: its first statement is
`throw new Error("Not yet implemented")`, placed before the assignments to
`this.socket`, `this.requestId` and `this.responseBuffer`, so construction
always fails and no field is ever initialized. -/
def rconConstructor : Except String Unit := Except.error "Not yet implemented"

/-! ## JavaScript string primitives

JavaScript strings are modelled as `List Char`. -/

/-- JavaScript string model. -/
abbrev JSStr := List Char

/-- Characters matched by the JavaScript regex class `\d`. -/
def isDigitCh (c : Char) : Bool := '0' ≤ c && c ≤ '9'

/-- Characters matched by the JavaScript regex class `\w`. -/
def isWordCh (c : Char) : Bool :=
  isDigitCh c || ('a' ≤ c && c ≤ 'z') || ('A' ≤ c && c ≤ 'Z') || c = '_'

/-- Characters matched by the JavaScript regex class `\s` (whitespace and
line terminators; the JavaScript set, by code point). -/
def isJsSpace (c : Char) : Bool :=
  let n := c.toNat
  n = 32 || n = 9 || n = 10 || n = 13 || n = 11 || n = 12 || n = 160 || n = 5760 ||
    (8192 ≤ n && n ≤ 8202) || n = 8232 || n = 8233 || n = 8239 || n = 8287 ||
    n = 12288 || n = 65279

/-- Characters matched by the JavaScript regex `.` (anything except the four
line terminators). -/
def jsDot (c : Char) : Bool :=
  c ≠ '\n' && c ≠ '\r' && c.toNat ≠ 8232 && c.toNat ≠ 8233

/-- JavaScript `String.prototype.trim`: strips `\s` characters from
both ends. -/
def jsTrim (s : JSStr) : JSStr :=
  ((s.dropWhile isJsSpace).reverse.dropWhile isJsSpace).reverse

/-- Index of the first occurrence of a literal substring, if any — the
leftmost-match rule of JavaScript regex search for a literal pattern. -/
def findLit (lit : JSStr) : JSStr → Option Nat
  | [] => if lit.isEmpty then some 0 else none
  | c :: tl =>
    if lit.isPrefixOf (c :: tl) then some 0 else (findLit lit tl).map (· + 1)

/-- Match a literal at the head of the input, returning the rest. -/
def matchLit (lit s : JSStr) : Option JSStr :=
  if lit.isPrefixOf s then some (s.drop lit.length) else none

/-- Consume a nonempty maximal digit run (`\d+` directly followed by a
non-digit literal, where greedy matching never backtracks), returning the
rest. -/
def dropDigits1 (s : JSStr) : Option JSStr :=
  let run := s.takeWhile isDigitCh
  if run.isEmpty then none else some (s.drop run.length)

/-- Longest suffix consisting of `.`-matchable characters. -/
def dotSuffix (s : JSStr) : JSStr := (s.reverse.takeWhile jsDot).reverse

/-- Capture of `(.*?)` in an unanchored JavaScript match of the pattern
`(.*?)<lit>`: the leftmost match ends at the first occurrence of the
literal, and the lazy group covers the characters reachable backwards from
it without crossing a line terminator. -/
def lazyDotCapture (lit msg : JSStr) : Option JSStr :=
  (findLit lit msg).map (fun i => dotSuffix (msg.take i))

/-- Unanchored search: try the predicate at every start position, leftmost
first. -/
def searchCapture (f : JSStr → Option α) : JSStr → Option α
  | [] => f []
  | c :: tl =>
    match f (c :: tl) with
    | some r => some r
    | none => searchCapture f tl

/-! ## Server log-line regexes (Server.ts)

`parseData` uses `\[(\d+:\d+:\d+)\] \[(.+?)\/(\w+)\]: (.+)`; `checkEvents`
uses `(.*?) joined the game`, `(.*?) left the game`,
`Done \(\d+\.\d+s\)! For help, type "help"` and `eula.txt`; `getPlayers`
uses `There are \d+ of a max of \d+ players online:\s*(.*)`.  Greedy
`\d+`/`\w+` runs sit directly before literals outside their class, so the
maximal run is the match; lazy groups are expanded shortest-first. -/

/-- Matcher for `(\d+:\d+:\d+)\] \[` after the opening bracket: returns the
first capture group and the rest of the input. -/
def timePart (s : JSStr) : Option (JSStr × JSStr) := do
  let d1 := s.takeWhile isDigitCh
  if d1.isEmpty then none else
  let s1 ← matchLit [':'] (s.drop d1.length)
  let d2 := s1.takeWhile isDigitCh
  if d2.isEmpty then none else
  let s2 ← matchLit [':'] (s1.drop d2.length)
  let d3 := s2.takeWhile isDigitCh
  if d3.isEmpty then none else
  let s3 ← matchLit "] [".data (s2.drop d3.length)
  pure (d1 ++ [':'] ++ d2 ++ [':'] ++ d3, s3)

/-- Matcher for `(.+?)\/(\w+)\]: (.+)`: the lazy group (`acc` so far) is
grown one `.`-matchable character at a time, shortest first; after each
extension the tail `\/(\w+)\]: (.+)` is attempted. -/
def fmtTail (acc : JSStr) : JSStr → Option (JSStr × JSStr × JSStr)
  | [] => none
  | c :: rest =>
    if jsDot c then
      match (do
        let s1 ← matchLit ['/'] rest
        let w := s1.takeWhile isWordCh
        if w.isEmpty then none else
        let s2 ← matchLit "]: ".data (s1.drop w.length)
        let msgCap := s2.takeWhile jsDot
        if msgCap.isEmpty then none else
        pure (acc ++ [c], w, msgCap) : Option (JSStr × JSStr × JSStr)) with
      | some r => some r
      | none => fmtTail (acc ++ [c]) rest
    else none

/-- The full format pattern of `Server.parseData` matched at a fixed start
position, returning the four capture groups. -/
def formatAt (s : JSStr) : Option (JSStr × JSStr × JSStr × JSStr) := do
  let s0 ← matchLit ['['] s
  let (time, s1) ← timePart s0
  let (thread, ty, msg) ← fmtTail [] s1
  pure (time, thread, ty, msg)

/-- Structured record produced by `Server.parseData`
(`Server.ParsedData` in the source). -/
structure ParsedData where
  message : JSStr
  time : Option JSStr := none
  thread : Option JSStr := none
  type : Option JSStr := none
deriving DecidableEq, Repr

/-- `Server.parseData`: on a format match the four groups populate the
record with the message trimmed; otherwise only the trimmed raw data is
kept. -/
def parseData (data : JSStr) : ParsedData :=
  match searchCapture formatAt data with
  | some (time, thread, ty, msg) =>
    { message := jsTrim msg, time := some time, thread := some thread, type := some ty }
  | none => { message := jsTrim data }

/-! ## Server.checkEvents (Server.ts lines 303-326) and the player set -/

/-- Domain events emitted by `Server.checkEvents`. -/
inductive ServerEvent
  | join (player : JSStr)
  | leave (player : JSStr)
  | ready
  | eula
deriving DecidableEq, Repr

/-- JavaScript `Set.prototype.add`: append if absent. -/
def setAdd (players : List JSStr) (x : JSStr) : List JSStr :=
  if x ∈ players then players else players ++ [x]

/-- JavaScript `Set.prototype.delete`: remove the element if present. -/
def setDelete (players : List JSStr) (x : JSStr) : List JSStr := players.erase x

/-- Capture of `(.*?) joined the game` on a message. -/
def joinCapture (msg : JSStr) : Option JSStr :=
  lazyDotCapture " joined the game".data msg

/-- Capture of `(.*?) left the game` on a message. -/
def leaveCapture (msg : JSStr) : Option JSStr :=
  lazyDotCapture " left the game".data msg

/-- Matcher for `Done \(\d+\.\d+s\)! For help, type "help"` at a fixed
start. -/
def readyAt (s : JSStr) : Bool :=
  (do
    let s1 ← matchLit "Done (".data s
    let s2 ← dropDigits1 s1
    let s3 ← matchLit ['.'] s2
    let s4 ← dropDigits1 s3
    let _ ← matchLit "s)! For help, type \"help\"".data s4
    pure () : Option Unit).isSome

/-- Unanchored test of the ready pattern. -/
def readyMatch (msg : JSStr) : Bool :=
  (searchCapture (fun s => if readyAt s then some () else none) msg).isSome

/-- Matcher for `eula.txt` (the dot matches any non-terminator character)
at a fixed start. -/
def eulaAt (s : JSStr) : Bool :=
  (do
    let s1 ← matchLit "eula".data s
    match s1 with
    | c :: rest => if jsDot c then matchLit "txt".data rest else none
    | [] => none : Option JSStr).isSome

/-- Unanchored test of the eula pattern. -/
def eulaMatch (msg : JSStr) : Bool :=
  (searchCapture (fun s => if eulaAt s then some () else none) msg).isSome

/-- `Server.checkEvents`: classifies a parsed line in the fixed order
join, leave, ready, eula; updates `this.players` on join and leave and
`this.ready` on the ready line; returns the updated player set, the
updated ready flag and the emitted event. -/
def checkEvents (players : List JSStr) (ready : Bool) (d : ParsedData) :
    List JSStr × Bool × Option ServerEvent :=
  match joinCapture d.message with
  | some name => (setAdd players name, ready, some (ServerEvent.join name))
  | none =>
    match leaveCapture d.message with
    | some name => (setDelete players name, ready, some (ServerEvent.leave name))
    | none =>
      if readyMatch d.message then (players, true, some ServerEvent.ready)
      else if d.type = some "minecraft".data ∧ d.thread = some "Main".data ∧
          eulaMatch d.message then (players, ready, some ServerEvent.eula)
      else (players, ready, none)

/-! ## Server.attachPtyEvents chunk handler (Server.ts lines 272-298)

The onData callback keeps an accumulator string.  When the incoming chunk
ends with a newline or carriage return, the accumulator plus the chunk is
flushed as one unit (parsed, recorded and emitted) and the accumulator is
cleared; otherwise the chunk is appended to the accumulator and nothing is
emitted. -/

/-- JavaScript test `data.endsWith("\n") || data.endsWith("\r")`. -/
def endsWithTerminator (data : JSStr) : Bool :=
  match data.getLast? with
  | some c => c = '\n' || c = '\r'
  | none => false

/-- One onData invocation: returns the new accumulator and the flushed
units (zero or one). -/
def onDataStep (buffered : JSStr) (data : JSStr) : JSStr × List JSStr :=
  if endsWithTerminator data then ([], [buffered ++ data])
  else (buffered ++ data, [])

/-- The sequence of flushed units produced by feeding a chunk sequence
through the onData handler, starting from an empty accumulator. -/
def reassembleLines (chunks : List JSStr) : List JSStr :=
  (chunks.foldl
    (fun st data =>
      let r := onDataStep st.1 data
      (r.1, st.2 ++ r.2))
    (([] : JSStr), ([] : List JSStr))).2

/-! ## Server.start and Server.getStatus (Server.ts) -/

/-- The process-related state of a `Server` instance: the pty child handle
(modelled by its pid) and the ready flag. -/
structure ServerProcState where
  ptyProcess : Option Nat
  ready : Bool
deriving DecidableEq, Repr

/-- `Server.start`: assigns `this.ptyProcess = pty.spawn(...)` and attaches
events.  The method performs no state inspection of any kind before
spawning, so it is total on states and never produces an error value. -/
def serverStart (s : ServerProcState) (newPid : Nat) : ServerProcState :=
  { s with ptyProcess := some newPid }

/-- `Server.getStatus`: running / starting / offline from the handle and
the ready flag. -/
def getStatus (s : ServerProcState) : String :=
  if s.ptyProcess.isSome then (if s.ready then "running" else "starting")
  else "offline"

/-! ## Server.getPlayers (Server.ts lines 431-452)

The call registers `dataHandler` on the data event, writes the `list`
command, and schedules a 2-second timer.  The handler, on a line matching
the players regex, removes itself with `off` and resolves.  The timer is
never cleared: when it fires it always calls `off` again and `reject`.
Promise semantics make every settlement after the first a no-op. -/

/-- Capture of `There are \d+ of a max of \d+ players online:\s*(.*)` at a
fixed start. -/
def listCaptureAt (s : JSStr) : Option JSStr := do
  let s1 ← matchLit "There are ".data s
  let s2 ← dropDigits1 s1
  let s3 ← matchLit " of a max of ".data s2
  let s4 ← dropDigits1 s3
  let s5 ← matchLit " players online:".data s4
  pure ((s5.dropWhile isJsSpace).takeWhile jsDot)

/-- Unanchored capture of the players listing pattern. -/
def listPlayersCapture (msg : JSStr) : Option JSStr :=
  searchCapture listCaptureAt msg

/-- The handler body `result[1].split(",").map(a => a.trim()).filter(Boolean)`. -/
def parsePlayerList (cap : JSStr) : List JSStr :=
  ((List.splitOn ',' cap).map jsTrim).filter (fun a => !a.isEmpty)

/-- Observable state of one `getPlayers` call: whether `dataHandler` is
registered, whether the promise is settled, the resolution value, and raw
invocation counters for `off`, `reject` and effective settlements. -/
structure GPState where
  registered : Bool
  settled : Bool
  resolvedPlayers : Option (List JSStr)
  offCalls : Nat
  rejectCalls : Nat
  settleEvents : Nat
deriving DecidableEq, Repr

/-- State right after `getPlayers` registers the handler and writes the
command. -/
def gpInit : GPState :=
  { registered := true, settled := false, resolvedPlayers := none,
    offCalls := 0, rejectCalls := 0, settleEvents := 0 }

/-- A `resolve(players)` call: effective only if the promise is not yet
settled. -/
def gpResolve (st : GPState) (ps : List JSStr) : GPState :=
  { st with
    settled := true
    resolvedPlayers := if st.settled then st.resolvedPlayers else some ps
    settleEvents := if st.settled then st.settleEvents else st.settleEvents + 1 }

/-- A `reject(new Error("Timeout"))` call: always counted, effective only
if the promise is not yet settled. -/
def gpReject (st : GPState) : GPState :=
  { st with
    rejectCalls := st.rejectCalls + 1
    settled := true
    settleEvents := if st.settled then st.settleEvents else st.settleEvents + 1 }

/-- A `this.off("data", dataHandler)` call. -/
def gpOff (st : GPState) : GPState :=
  { st with registered := false, offCalls := st.offCalls + 1 }

/-- Events observable by one `getPlayers` call: a data event carrying a
parsed line, or the firing of the 2-second timer. -/
inductive GPEvent
  | dataEv (d : ParsedData)
  | timeoutEv
deriving DecidableEq, Repr

/-- One event step.  `dataHandler` runs only while registered; on a line
matching the players pattern it replaces `this.players`, calls `off` on
itself and resolves.  The timer callback always calls `off` and
`reject`. -/
def gpStep (st : GPState) : GPEvent → GPState
  | GPEvent.dataEv d =>
    if st.registered then
      match listPlayersCapture d.message with
      | some cap => gpResolve (gpOff st) (parsePlayerList cap)
      | none => st
    else st
  | GPEvent.timeoutEv => gpReject (gpOff st)

/-- A full run of one `getPlayers` call over an event sequence. -/
def gpRun (events : List GPEvent) : GPState := events.foldl gpStep gpInit

/-! ## Server.parseProperties and Server.connectRcon (Server.ts) -/

/-- JavaScript object assignment `record[key] = value` preserving insertion
order: overwrite in place if present, else append. -/
def recordSet (r : List (JSStr × Option JSStr)) (k : JSStr) (v : Option JSStr) :
    List (JSStr × Option JSStr) :=
  if r.any (fun p => p.1 = k) then r.map (fun p => if p.1 = k then (k, v) else p)
  else r ++ [(k, v)]

/-- JavaScript property access `record[key]`: `none` models `undefined`,
whether the key is absent or was stored as `undefined`. -/
def recordGet (r : List (JSStr × Option JSStr)) (k : JSStr) : Option JSStr :=
  ((r.find? (fun p => p.1 = k)).map Prod.snd).getD none

/-- `Server.parseProperties`: splits the file on `"\n"`, splits each line
on every `"="` (the JavaScript `line.split("=")`), destructures the segment
array as `[key, value]` — so `key` is the first segment and `value` the
second segment or `undefined` — and assigns `properties[key] = value`. -/
def parseProperties (data : JSStr) : List (JSStr × Option JSStr) :=
  (List.splitOn '\n' data).foldl
    (fun props line =>
      let segs := List.splitOn '=' line
      recordSet props (segs.headD []) segs[1]?)
    []

/-- JavaScript truthiness of a `string | undefined` value: `undefined` and
the empty string are falsy. -/
def jsTruthy : Option JSStr → Bool
  | none => false
  | some s => !s.isEmpty

/-- `Server.connectRcon`: parses the properties file content, reads
`enable-rcon` and `rcon.password` (the host and port lookups do not affect
control flow), throws when either is falsy, and otherwise evaluates
`new RCON()` — whose constructor always throws — before any connect could
happen. -/
def connectRcon (fileContent : JSStr) : Except String Unit :=
  let properties := parseProperties fileContent
  let enabled := recordGet properties "enable-rcon".data
  let password := recordGet properties "rcon.password".data
  if jsTruthy enabled && jsTruthy password then
    match rconConstructor with
    | Except.ok _ => Except.ok ()
    | Except.error e => Except.error e
  else
    Except.error "RCON password not found in server.properties. Please set both the `enable-rcon` and `rcon.password` properties in the server.properties file."

/-! ## Theorems for the claims -/

/-- Claim C1.  Claimed: concurrently outstanding send() calls are correlated to
their own responses through a pending-request table keyed by request id.
The code has no such table: each send() binds a bare once-listener, so when
the responses to request 0 (body `[97]`) and request 1 (body `[98]`) arrive
in one combined read, both listeners receive the same chunk, and the second
invocation — the buffer having been reset to null by the first — extracts
the first packet again: both callers resolve with the body of packet 0, and
the caller of request 1 receives the wrong body. -/
theorem rcon_concurrent_sends_misrouted :
    handleResponse none (createPacket 0 0 [97] ++ createPacket 1 0 [98]) =
      (none, HrOutcome.packet 0 [97]) ∧
    handleResponse (handleResponse none (createPacket 0 0 [97] ++ createPacket 1 0 [98])).1
        (createPacket 0 0 [97] ++ createPacket 1 0 [98]) =
      (none, HrOutcome.packet 0 [97]) ∧
    HrOutcome.packet 0 [97] ≠ HrOutcome.packet 1 [98] := by decide

/-- Claim C2.  Claimed: the emitted line sequence is invariant under re-chunking
of the byte stream.  The chunk handler flushes the whole accumulated buffer
as one unit only when a chunk ends with a terminator, so the stream
`"a\nb\n"` yields one unit when delivered as a single chunk but two units
when delivered as two chunks: the sequence depends on the chunking. -/
theorem reassembly_depends_on_chunking :
    List.flatten [("a\nb\n".data : JSStr)] = List.flatten [("a\n".data : JSStr), "b\n".data] ∧
    reassembleLines ["a\nb\n".data] = ["a\nb\n".data] ∧
    reassembleLines ["a\n".data, "b\n".data] = ["a\n".data, "b\n".data] ∧
    reassembleLines ["a\nb\n".data] ≠ reassembleLines ["a\n".data, "b\n".data] := by decide

/-- Claim C3.  The RCON constructor throws before initializing any field, and
every `Server.connectRcon` call fails: either the enable-rcon / password
check throws, or `new RCON()` is reached and throws. -/
theorem rcon_subsystem_unreachable :
    rconConstructor = Except.error "Not yet implemented" ∧
    ∀ fileContent : JSStr, ∃ msg, connectRcon fileContent = Except.error msg := by
  refine ⟨rfl, fun fc => ?_⟩
  simp only [connectRcon, rconConstructor]
  split
  · exact ⟨_, rfl⟩
  · exact ⟨_, rfl⟩

/-- Claim C5, counterexample.  Claimed: for any buffer state short of a full
packet, including fewer than 12 header bytes, the decoder defers without
raising an error.  On a five-byte buffer `handleResponse` rejects with the
incomplete-packet error instead of deferring. -/
theorem short_buffer_raises_error :
    handleResponse none [0, 0, 0, 0, 0] =
      (some [0, 0, 0, 0, 0], HrOutcome.incompleteError) ∧
    HrOutcome.incompleteError ≠ HrOutcome.deferred := by decide

/-- Claim C5, amended.  With at least 12 buffered bytes but fewer than
`4 + declared length`, the decoder defers, retaining the combined buffer
and raising no error; with fewer than 12 bytes it retains the buffer but
rejects with the incomplete-packet error; a packet is extracted exactly
when `4 + declared length` bytes have arrived. -/
theorem handleResponse_defer_amended (buf : Option (List Nat)) (data : List Nat) :
    ((combineBuf buf data).length < 12 →
      handleResponse buf data = (some (combineBuf buf data), HrOutcome.incompleteError)) ∧
    (12 ≤ (combineBuf buf data).length →
      ((combineBuf buf data).length : Int) < readInt32LE (combineBuf buf data) 0 + 4 →
      handleResponse buf data = (some (combineBuf buf data), HrOutcome.deferred)) ∧
    (12 ≤ (combineBuf buf data).length →
      readInt32LE (combineBuf buf data) 0 + 4 ≤ ((combineBuf buf data).length : Int) →
      handleResponse buf data = (none, HrOutcome.packet (readInt32LE (combineBuf buf data) 4)
        (bufSlice (combineBuf buf data) 12 (readInt32LE (combineBuf buf data) 0 + 2)))) := by
  unfold handleResponse
  refine ⟨fun h => ?_, fun h1 h2 => ?_, fun h1 h2 => ?_⟩
  · rw [if_neg (by omega)]
  · rw [if_pos (by omega), if_neg (by omega)]
  · rw [if_pos (by omega), if_pos (by omega)]

/-- Claim C5, amended, witness: a three-byte read is rejected as incomplete with
the bytes retained; a twelve-byte read declaring a 100-byte packet defers
with the bytes retained. -/
theorem handleResponse_defer_amended_witness :
    handleResponse none [0, 0, 0] = (some [0, 0, 0], HrOutcome.incompleteError) ∧
    handleResponse none [100, 0, 0, 0, 1, 0, 0, 0, 0, 0, 0, 0] =
      (some [100, 0, 0, 0, 1, 0, 0, 0, 0, 0, 0, 0], HrOutcome.deferred) := by
  constructor
  · exact (handleResponse_defer_amended none [0, 0, 0]).1 (by decide)
  · exact (handleResponse_defer_amended none [100, 0, 0, 0, 1, 0, 0, 0, 0, 0, 0, 0]).2.1
      (by decide) (by decide)

/-- Claim C6.  Claimed: every send() settles, failing with TimeoutError when no
response arrives in a bounded interval.  `sendPacket` registers no timer at
all — its promise can settle only from a data or error event — so on a
socket that never emits another event the promise stays pending forever. -/
theorem send_never_settles_without_response (buf : Option (List Nat)) :
    sendPacketAwait buf [] = none := rfl

/-- Claim C7.  Claimed: start() from any state other than Offline (or Exited)
fails with ValidationError.  `Server.start` performs no state check: from a
state whose status is "starting" (a child handle is present) it spawns
again without error, replacing the previous child handle. -/
theorem start_spawns_from_any_state :
    getStatus { ptyProcess := some 1, ready := false } = "starting" ∧
    serverStart { ptyProcess := some 1, ready := false } 2 =
      { ptyProcess := some 2, ready := false } ∧
    getStatus (serverStart { ptyProcess := some 1, ready := false } 2) = "starting" := by
  refine ⟨rfl, rfl, rfl⟩

/-- Claim C8, counterexample.  Claimed: the listener is deregistered exactly once
and the timeout path never deregisters or rejects a call that already
resolved.  The 2-second timer is never cleared: after the matching line
resolves the call (one off call), the timer still fires and performs a
second off call and a reject. -/
theorem getPlayers_timer_fires_after_resolve :
    gpRun [GPEvent.dataEv
        { message := "There are 1 of a max of 20 players online: Steve".data },
      GPEvent.timeoutEv] =
      { registered := false, settled := true, resolvedPlayers := some ["Steve".data],
        offCalls := 2, rejectCalls := 1, settleEvents := 1 } := by decide

/-- Claim C10.  Claimed: each line is split at the first `=` only, the value
being the whole remainder of the line.  `line.split("=")` splits at every
`=` and the destructuring keeps only the second segment, so for
`motd=a=b` the stored value is `a`, not the remainder `a=b`. -/
theorem parseProperties_truncates_at_second_equals :
    recordGet (parseProperties "motd=a=b".data) "motd".data = some "a".data ∧
    some ("a".data : JSStr) ≠ some "a=b".data := by decide

/-! ### C4: wire format and round trip -/

/-- Helper: overwriting the segment `mid` of a buffer with equally many
bytes `bs`. -/
theorem writeBytes_at (pre mid post bs : List Nat) (off : Nat)
    (hoff : pre.length = off) (hlen : bs.length = mid.length) :
    writeBytes (pre ++ (mid ++ post)) off bs = pre ++ (bs ++ post) := by
  subst hoff
  unfold writeBytes
  rw [List.take_left]
  rw [show pre.length + bs.length = (pre ++ mid).length by simp [hlen]]
  rw [← List.append_assoc, List.drop_left]
  simp [List.append_assoc]

/-- The bytes produced by `createPacket`, exactly as the claim states the
wire format: little-endian int32 declared length (bytes following that
field, i.e. body length + 10), int32 request id, int32 packet type, the
payload bytes, and two trailing null bytes. -/
theorem createPacket_wire (id ty : Int) (body : List Nat) :
    createPacket id ty body =
      le32 ((body.length : Int) + 10) ++ le32 id ++ le32 ty ++ body ++ [0, 0] := by
  have hA : ((body.length + 14 : Nat) : Int) - 4 = (body.length : Int) + 10 := by
    push_cast
    ring
  have h0 : bufferAlloc (body.length + 14) =
      List.replicate 4 0 ++ (List.replicate 4 0 ++ (List.replicate 4 0 ++
        (List.replicate body.length 0 ++ List.replicate 2 0))) := by
    unfold bufferAlloc
    rw [show body.length + 14 = 4 + (4 + (4 + (body.length + 2))) by omega]
    rw [List.replicate_add, List.replicate_add, List.replicate_add, List.replicate_add]
  have h1 : writeInt32LE (bufferAlloc (body.length + 14)) ((body.length : Int) + 10) 0 =
      le32 ((body.length : Int) + 10) ++ (List.replicate 4 0 ++ (List.replicate 4 0 ++
        (List.replicate body.length 0 ++ List.replicate 2 0))) := by
    rw [h0]
    unfold writeInt32LE
    have := writeBytes_at [] (List.replicate 4 0)
      (List.replicate 4 0 ++ (List.replicate 4 0 ++
        (List.replicate body.length 0 ++ List.replicate 2 0)))
      (le32 ((body.length : Int) + 10)) 0 rfl (by simp [le32, le32u])
    simpa using this
  have h2 : writeInt32LE (le32 ((body.length : Int) + 10) ++ (List.replicate 4 0 ++
        (List.replicate 4 0 ++ (List.replicate body.length 0 ++ List.replicate 2 0)))) id 4 =
      le32 ((body.length : Int) + 10) ++ (le32 id ++ (List.replicate 4 0 ++
        (List.replicate body.length 0 ++ List.replicate 2 0))) := by
    unfold writeInt32LE
    exact writeBytes_at (le32 ((body.length : Int) + 10)) (List.replicate 4 0)
      (List.replicate 4 0 ++ (List.replicate body.length 0 ++ List.replicate 2 0))
      (le32 id) 4 rfl (by simp [le32, le32u])
  have h3 : writeInt32LE (le32 ((body.length : Int) + 10) ++ (le32 id ++
        (List.replicate 4 0 ++ (List.replicate body.length 0 ++ List.replicate 2 0)))) ty 8 =
      le32 ((body.length : Int) + 10) ++ (le32 id ++ (le32 ty ++
        (List.replicate body.length 0 ++ List.replicate 2 0))) := by
    unfold writeInt32LE
    rw [← List.append_assoc]
    have := writeBytes_at (le32 ((body.length : Int) + 10) ++ le32 id)
      (List.replicate 4 0) (List.replicate body.length 0 ++ List.replicate 2 0)
      (le32 ty) 8 (by simp [le32, le32u]) (by simp [le32, le32u])
    rw [this]
    simp [List.append_assoc]
  have h4 : writeBytes (le32 ((body.length : Int) + 10) ++ (le32 id ++ (le32 ty ++
        (List.replicate body.length 0 ++ List.replicate 2 0)))) 12 body =
      le32 ((body.length : Int) + 10) ++ (le32 id ++ (le32 ty ++
        (body ++ List.replicate 2 0))) := by
    rw [show le32 ((body.length : Int) + 10) ++ (le32 id ++ (le32 ty ++
        (List.replicate body.length 0 ++ List.replicate 2 0))) =
      (le32 ((body.length : Int) + 10) ++ le32 id ++ le32 ty) ++
        (List.replicate body.length 0 ++ List.replicate 2 0) by simp [List.append_assoc]]
    have := writeBytes_at (le32 ((body.length : Int) + 10) ++ le32 id ++ le32 ty)
      (List.replicate body.length 0) (List.replicate 2 0) body 12
      (by simp [le32, le32u]) (by simp)
    rw [this]
    simp [List.append_assoc]
  have h5 : writeInt16LE (le32 ((body.length : Int) + 10) ++ (le32 id ++ (le32 ty ++
        (body ++ List.replicate 2 0)))) 0 (body.length + 14 - 2) =
      le32 ((body.length : Int) + 10) ++ (le32 id ++ (le32 ty ++ (body ++ [0, 0]))) := by
    unfold writeInt16LE
    rw [show le32 ((body.length : Int) + 10) ++ (le32 id ++ (le32 ty ++
        (body ++ List.replicate 2 0))) =
      (le32 ((body.length : Int) + 10) ++ le32 id ++ le32 ty ++ body) ++
        (List.replicate 2 0 ++ []) by simp [List.append_assoc]]
    have := writeBytes_at (le32 ((body.length : Int) + 10) ++ le32 id ++ le32 ty ++ body)
      (List.replicate 2 0) []
      [((0 : Int) % 65536).toNat % 256, ((0 : Int) % 65536).toNat / 256]
      (body.length + 14 - 2) (by simp [le32, le32u]) (by simp)
    rw [this]
    simp [List.append_assoc]
  simp only [createPacket, hA, h1, h2, h3, h4, h5]
  simp [List.append_assoc]

/-- Helper: `readInt32LE` at offset 0 recovers the integer encoded by
`le32` for any 32-bit signed value. -/
theorem readInt32LE_le32_head (i : Int) (rest : List Nat)
    (h1 : -2147483648 ≤ i) (h2 : i < 2147483648) :
    readInt32LE (le32 i ++ rest) 0 = i := by
  have b0 : byteAt (le32 i ++ rest) 0 = toUInt32rep i % 256 := rfl
  have b1 : byteAt (le32 i ++ rest) (0 + 1) = toUInt32rep i / 256 % 256 := rfl
  have b2 : byteAt (le32 i ++ rest) (0 + 2) = toUInt32rep i / 65536 % 256 := rfl
  have b3 : byteAt (le32 i ++ rest) (0 + 3) = toUInt32rep i / 16777216 % 256 := rfl
  unfold readInt32LE
  rw [b0, b1, b2, b3]
  unfold fromU32 toUInt32rep
  omega

/-- Helper: reading an int32 past a leading four-byte field. -/
theorem readInt32LE_shift4 (a : Int) (l2 : List Nat) :
    readInt32LE (le32 a ++ l2) 4 = readInt32LE l2 0 := rfl

/-- Helper: the body slice `[12, length + 2)` of a well-formed packet is
exactly the body. -/
theorem bufSlice_body (a b c : Int) (body : List Nat) :
    bufSlice (le32 a ++ (le32 b ++ (le32 c ++ (body ++ [0, 0])))) 12
      ((body.length : Int) + 12) = body := by
  unfold bufSlice
  rw [show (((body.length : Int) + 12).toNat) = body.length + 12 by omega]
  rw [show ((12 : Int).toNat) = 12 by rfl]
  rw [List.drop_take]
  rw [show body.length + 12 - 12 = body.length by omega]
  have hd : (le32 a ++ (le32 b ++ (le32 c ++ (body ++ [0, 0])))).drop 12 =
      body ++ [0, 0] := rfl
  rw [hd, List.take_left]

/-- Claim C4.  Encoding a packet and decoding the resulting bytes round-trips the
request id and the body exactly, and the encoded bytes follow the bit-exact
wire format: little-endian int32 total length (body length + 10, the bytes
following that field), int32 request id, int32 packet type, payload bytes,
two trailing null bytes.  The id ranges over signed 32-bit integers, the
body over null-free byte lists whose declared length fits an int32. -/
theorem packet_roundtrip_wire_format (id ty : Int) (body : List Nat)
    (hid1 : -2147483648 ≤ id) (hid2 : id < 2147483648)
    (hlen : body.length + 10 < 2147483648)
    (hbytes : ∀ b ∈ body, b < 256) (hnz : ∀ b ∈ body, b ≠ 0) :
    createPacket id ty body =
      le32 ((body.length : Int) + 10) ++ le32 id ++ le32 ty ++ body ++ [0, 0] ∧
    handleResponse none (createPacket id ty body) = (none, HrOutcome.packet id body) := by
  have hw := createPacket_wire id ty body
  refine ⟨hw, ?_⟩
  rw [hw]
  rw [show le32 ((body.length : Int) + 10) ++ le32 id ++ le32 ty ++ body ++ [0, 0] =
    le32 ((body.length : Int) + 10) ++ (le32 id ++ (le32 ty ++ (body ++ [0, 0])))
    by simp [List.append_assoc]]
  have hcb : combineBuf none
      (le32 ((body.length : Int) + 10) ++ (le32 id ++ (le32 ty ++ (body ++ [0, 0])))) =
      le32 ((body.length : Int) + 10) ++ (le32 id ++ (le32 ty ++ (body ++ [0, 0]))) := rfl
  have hlenrb : (le32 ((body.length : Int) + 10) ++ (le32 id ++ (le32 ty ++
      (body ++ [0, 0])))).length = body.length + 14 := by
    simp [le32, le32u]
  have hread0 : readInt32LE (le32 ((body.length : Int) + 10) ++ (le32 id ++ (le32 ty ++
      (body ++ [0, 0])))) 0 = (body.length : Int) + 10 :=
    readInt32LE_le32_head _ _ (by omega) (by omega)
  have hread4 : readInt32LE (le32 ((body.length : Int) + 10) ++ (le32 id ++ (le32 ty ++
      (body ++ [0, 0])))) 4 = id := by
    rw [readInt32LE_shift4]
    exact readInt32LE_le32_head _ _ hid1 hid2
  unfold handleResponse
  rw [hcb, hlenrb, hread0, hread4]
  rw [if_pos (by omega), if_pos (by push_cast; omega)]
  rw [show (body.length : Int) + 10 + 2 = (body.length : Int) + 12 by ring]
  rw [bufSlice_body]

/-- Claim C4, witness: a concrete packet with id 7, type 2 and body bytes
`[104, 105]` round-trips. -/
theorem packet_roundtrip_wire_format_witness :
    handleResponse none (createPacket 7 2 [104, 105]) =
      (none, HrOutcome.packet 7 [104, 105]) :=
  (packet_roundtrip_wire_format 7 2 [104, 105] (by decide) (by decide) (by decide)
    (by decide) (by decide)).2

/-! ### C8 amended: settlement and listener discipline of getPlayers -/

/-- Invariant maintained by `getPlayers` before the timer fires: the
handler is registered exactly while the promise is unsettled, and the off
and effective-settlement counters track the settlement flag. -/
def GPInv (st : GPState) : Prop :=
  st.registered = !st.settled ∧
  st.offCalls = (if st.settled then 1 else 0) ∧
  st.settleEvents = (if st.settled then 1 else 0)

/-- Helper: a data event preserves the invariant. -/
theorem gpStep_data_inv (st : GPState) (d : ParsedData) (h : GPInv st) :
    GPInv (gpStep st (GPEvent.dataEv d)) := by
  obtain ⟨h1, h2, h3⟩ := h
  cases hr : st.registered with
  | false =>
    simp only [gpStep, hr]
    simp only [Bool.false_eq_true, if_false]
    exact ⟨h1, h2, h3⟩
  | true =>
    have hs : st.settled = false := by
      rw [hr] at h1
      cases hsl : st.settled
      · rfl
      · rw [hsl] at h1
        exact absurd h1 (by decide)
    rw [hs] at h2 h3
    simp only [if_neg Bool.false_ne_true] at h2 h3
    cases hm : listPlayersCapture d.message with
    | none =>
      simp only [gpStep, hr, if_true, hm]
      exact ⟨h1, by rw [hs, h2]; simp, by rw [hs, h3]; simp⟩
    | some cap =>
      simp only [gpStep, hr, if_true, hm]
      refine ⟨?_, ?_, ?_⟩ <;> simp [gpResolve, gpOff, hs, h2, h3]

/-- Helper: data events preserve the invariant along a fold. -/
theorem gpFold_data_inv (pre : List ParsedData) (st : GPState) (h : GPInv st) :
    GPInv (List.foldl gpStep st (pre.map GPEvent.dataEv)) := by
  induction pre generalizing st with
  | nil => simpa using h
  | cons d tl ih =>
    simpa using ih (gpStep st (GPEvent.dataEv d)) (gpStep_data_inv st d h)

/-- Helper: once the handler is deregistered, data events change nothing. -/
theorem gpStep_unregistered (st : GPState) (d : ParsedData)
    (h : st.registered = false) : gpStep st (GPEvent.dataEv d) = st := by
  simp [gpStep, h]

/-- Helper: once the handler is deregistered, any run of data events is the
identity. -/
theorem gpFold_unregistered (post : List ParsedData) (st : GPState)
    (h : st.registered = false) :
    List.foldl gpStep st (post.map GPEvent.dataEv) = st := by
  induction post with
  | nil => rfl
  | cons d tl ih => simpa [gpStep_unregistered st d h] using ih

/-- Claim C8, amended.  For every run of one `getPlayers` call — any data lines
before the timer fires and any after — the promise settles exactly once and
the handler ends deregistered, so no later line can re-fire it and the
events after the timer change nothing at all; however, the timer is never
cancelled, so when the matching line already resolved the call the timeout
path still runs, performing a second off call (a no-op on the removed
listener) and a reject (ignored by promise semantics). -/
theorem getPlayers_settles_exactly_once (pre post : List ParsedData) :
    (gpRun (pre.map GPEvent.dataEv ++ GPEvent.timeoutEv :: post.map GPEvent.dataEv)).settleEvents
      = 1 ∧
    (gpRun (pre.map GPEvent.dataEv ++ GPEvent.timeoutEv :: post.map GPEvent.dataEv)).registered
      = false ∧
    (gpRun (pre.map GPEvent.dataEv ++ GPEvent.timeoutEv :: post.map GPEvent.dataEv)).offCalls
      = (if (gpRun (pre.map GPEvent.dataEv)).settled then 2 else 1) ∧
    gpRun (pre.map GPEvent.dataEv ++ GPEvent.timeoutEv :: post.map GPEvent.dataEv)
      = gpRun (pre.map GPEvent.dataEv ++ [GPEvent.timeoutEv]) := by
  have hinit : GPInv gpInit := by
    refine ⟨rfl, rfl, rfl⟩
  have hA : GPInv (gpRun (pre.map GPEvent.dataEv)) :=
    gpFold_data_inv pre gpInit hinit
  obtain ⟨h1, h2, h3⟩ := hA
  have hsplit : gpRun (pre.map GPEvent.dataEv ++ GPEvent.timeoutEv :: post.map GPEvent.dataEv)
      = List.foldl gpStep (gpStep (gpRun (pre.map GPEvent.dataEv)) GPEvent.timeoutEv)
          (post.map GPEvent.dataEv) := by
    unfold gpRun
    rw [List.foldl_append]
    rfl
  have hTreg : (gpStep (gpRun (pre.map GPEvent.dataEv)) GPEvent.timeoutEv).registered
      = false := by
    simp [gpStep, gpReject, gpOff]
  have hfix : List.foldl gpStep (gpStep (gpRun (pre.map GPEvent.dataEv)) GPEvent.timeoutEv)
      (post.map GPEvent.dataEv) = gpStep (gpRun (pre.map GPEvent.dataEv)) GPEvent.timeoutEv :=
    gpFold_unregistered post _ hTreg
  have hsplit2 : gpRun (pre.map GPEvent.dataEv ++ [GPEvent.timeoutEv])
      = gpStep (gpRun (pre.map GPEvent.dataEv)) GPEvent.timeoutEv := by
    unfold gpRun
    rw [List.foldl_append]
    rfl
  rw [hsplit, hfix, hsplit2]
  refine ⟨?_, hTreg, ?_, rfl⟩
  · cases hs : (gpRun (pre.map GPEvent.dataEv)).settled <;>
      simp [gpStep, gpReject, gpOff, hs, h3]
  · cases hs : (gpRun (pre.map GPEvent.dataEv)).settled <;>
      simp [gpStep, gpReject, gpOff, hs, h2]

/-! ### C9: join and leave maintain the player set -/

/-- Helper: an added player is a member of the set. -/
theorem mem_setAdd (l : List JSStr) (x : JSStr) : x ∈ setAdd l x := by
  by_cases h : x ∈ l <;> simp [setAdd, h]

/-- Helper: adding preserves the no-duplicates invariant of a JavaScript
Set. -/
theorem setAdd_nodup (l : List JSStr) (x : JSStr) (h : l.Nodup) :
    (setAdd l x).Nodup := by
  by_cases hx : x ∈ l
  · simpa [setAdd, hx] using h
  · simp [setAdd, hx, List.nodup_append, h]

/-- Claim C9.  A join line for a player adds that player to the online set (and
emits the join event); a join for X followed by a leave for X removes X
from the set; a leave line for a player not in the set leaves the set
unchanged — deleting never errors and never underflows.  The concrete line
`[10:00:01] [Server thread/INFO]: Steve joined the game` parses to the
expected record, emits the join event for Steve and makes the player set
exactly `{"Steve"}`. -/
theorem join_leave_player_set :
    (∀ (players : List JSStr) (ready : Bool) (d : ParsedData) (name : JSStr),
      joinCapture d.message = some name →
        (checkEvents players ready d).1 = setAdd players name ∧
        name ∈ (checkEvents players ready d).1 ∧
        (checkEvents players ready d).2.2 = some (ServerEvent.join name)) ∧
    (∀ (players : List JSStr) (r1 r2 : Bool) (dj dl : ParsedData) (name : JSStr),
      players.Nodup →
      joinCapture dj.message = some name →
      joinCapture dl.message = none →
      leaveCapture dl.message = some name →
        name ∉ (checkEvents (checkEvents players r1 dj).1 r2 dl).1) ∧
    (∀ (players : List JSStr) (ready : Bool) (d : ParsedData) (name : JSStr),
      joinCapture d.message = none →
      leaveCapture d.message = some name →
      name ∉ players →
        (checkEvents players ready d).1 = players) ∧
    (parseData "[10:00:01] [Server thread/INFO]: Steve joined the game".data =
      { message := "Steve joined the game".data, time := some "10:00:01".data,
        thread := some "Server thread".data, type := some "INFO".data } ∧
      checkEvents [] false
        (parseData "[10:00:01] [Server thread/INFO]: Steve joined the game".data) =
        (["Steve".data], false, some (ServerEvent.join "Steve".data))) := by
  refine ⟨?_, ?_, ?_, by decide, by decide⟩
  · intro players ready d name hj
    simp [checkEvents, hj, mem_setAdd]
  · intro players r1 r2 dj dl name hnd hj hjl hll
    have hstep1 : (checkEvents players r1 dj).1 = setAdd players name := by
      simp only [checkEvents, hj]
    rw [hstep1]
    simp only [checkEvents, hjl, hll]
    intro hmem
    simp only [setDelete] at hmem
    rw [List.Nodup.mem_erase_iff (setAdd_nodup players name hnd)] at hmem
    exact hmem.1 rfl
  · intro players ready d name hj hl hnm
    simp only [checkEvents, hj, hl]
    exact List.erase_of_not_mem hnm

/-- Claim C9, witness: concrete join, join-then-leave and leave-without-join
runs. -/
theorem join_leave_player_set_witness :
    ("A".data : JSStr) ∈ (checkEvents [] false { message := "A joined the game".data }).1 ∧
    ("B".data : JSStr) ∉ (checkEvents
      (checkEvents [] false { message := "B joined the game".data }).1 false
      { message := "B left the game".data }).1 ∧
    (checkEvents ["X".data] false { message := "Q left the game".data }).1 = ["X".data] := by
  refine ⟨?_, ?_, ?_⟩
  · exact (join_leave_player_set.1 [] false { message := "A joined the game".data }
      "A".data (by decide)).2.1
  · exact join_leave_player_set.2.1 [] false false
      { message := "B joined the game".data } { message := "B left the game".data }
      "B".data (by decide) (by decide) (by decide) (by decide)
  · exact join_leave_player_set.2.2.1 ["X".data] false
      { message := "Q left the game".data } "Q".data (by decide) (by decide) (by decide)
